import Mathlib

/-!
Verification of the event ingestion and alerting core of the quake-watch
monitor (src/main.py).  Python floats are modelled as exact rationals for
the data flow and as real numbers for the haversine formula; external
effects (the HTTP fetch, reverse geocoding, the wall clock, the audible
beep) are modelled as oracle functions or recorded actions, so that every
definition stays executable and evaluable on concrete inputs.
-/

namespace QuakeWatch

/-- One record of the fetched feed, after the extraction done at the top of
the loop body: qlon and qlat come from the geometry coordinates, mag is the
nullable magnitude (the code applies the default 0 via the Python idiom
mag or 0, modelled with Option.getD), place the location text, time the
epoch-millisecond timestamp, qid the feed-assigned identifier. -/
structure FeedRecord where
  qid : String
  qlat : ℚ
  qlon : ℚ
  mag : Option ℚ
  place : String
  time : ℤ
  deriving DecidableEq, Repr

/-- The per-cycle settings parsed from the UI fields at the top of the loop
body (lat, lon, radius, minimum magnitude), together with the country-filter
toggle and the selected country that the loop reads while processing. -/
structure Params where
  lat : ℚ
  lon : ℚ
  rad : ℚ
  mag : ℚ
  filterByCountry : Bool
  selCountry : String
  deriving DecidableEq, Repr

/-- External oracles consumed by the loop body: dist stands for the float
evaluation of haversine_km (the formula itself is modelled separately over
the reals as haversine_km below), country stands for get_country, and now
for the wall-clock string used in the status line. -/
structure Env where
  dist : ℚ → ℚ → ℚ → ℚ → ℚ
  country : ℚ → ℚ → String
  now : String

/-- One row of the displayed table, keeping the raw values that _add_row
formats into strings.  The place field carries the country suffix the code
appends to the place text. -/
structure Row where
  time : ℤ
  mag : ℚ
  dist : ℚ
  place : String
  qlat : ℚ
  qlon : ℚ
  qid : String
  deriving DecidableEq, Repr

/-- The cross-cycle session state of the app object: the seen identifier
set (a set, modelled as a duplicate-free list written only through the
guarded insert of the loop), the displayed table rows (newest insertion
first, mirroring tree.insert at index 0), the chart points, and the status
line. -/
structure SessionState where
  seen_ids : List String
  table : List Row
  chart_points : List (ℤ × ℚ)
  status : String
  deriving DecidableEq, Repr

/-- The session alert threshold self.alert_threshold = 5.5, written as the
reduced fraction 11/2 so that concrete comparisons evaluate in the kernel;
the lemma alert_threshold_eq below identifies it with the literal 5.5. -/
def alert_threshold : ℚ := ⟨11, 2, by decide, by decide⟩

/-- The observable per-event actions of the loop body, recorded in source
order so that ordering claims about the seen-set commit and the alert
evaluation can be stated:  commitSeen is seen_ids.add, addRow is _add_row,
addChart is chart_points.append, alertCheck is the evaluation of the
condition qmag >= alert_threshold, beep is the winsound.Beep call. -/
inductive Action where
  | commitSeen (qid : String)
  | addRow (qid : String)
  | addChart (qid : String)
  | alertCheck (qid : String)
  | beep (qid : String)
  deriving DecidableEq, Repr

/-- The action block emitted for one new in-range event, in the statement
order of the loop body: the seen-set commit, the row insert, the chart
append, then the alert-threshold evaluation, and the beep when the
threshold is met. -/
def eventActions (q : String) (b : Bool) : List Action :=
  [Action.commitSeen q, Action.addRow q, Action.addChart q, Action.alertCheck q]
    ++ (if b then [Action.beep q] else [])

/-- The per-cycle outputs: identifiers newly committed and reported this
cycle (in feed-processing order), the number of winsound.Beep calls, and
the recorded action trace. -/
structure CycleOut where
  newIds : List String
  beeps : Nat
  trace : List Action
  deriving DecidableEq, Repr

/-- The empty cycle output. -/
def emptyOut : CycleOut := { newIds := [], beeps := 0, trace := [] }

/-- qmag = properties mag or 0. -/
def magOf (r : FeedRecord) : ℚ := r.mag.getD 0

/-- dist = haversine_km(lat, lon, qlat, qlon), through the oracle. -/
def distOf (env : Env) (p : Params) (r : FeedRecord) : ℚ :=
  env.dist p.lat p.lon r.qlat r.qlon

/-- cn = get_country(qlat, qlon), through the oracle. -/
def countryOf (env : Env) (r : FeedRecord) : String :=
  env.country r.qlat r.qlon

/-- The values _add_row receives for a new in-range event, with the country
suffix appended to the place text as in the f-string. -/
def mkRow (env : Env) (p : Params) (r : FeedRecord) : Row :=
  { time := r.time, mag := magOf r, dist := distOf env p r,
    place := r.place ++ " (" ++ countryOf env r ++ ")",
    qlat := r.qlat, qlon := r.qlon, qid := r.qid }

/-- One iteration of the for-loop over the fetched features: skip when the
country filter is on and the resolved country differs from the selection;
otherwise, when the event is within radius, at or above the minimum
magnitude and its identifier is not yet seen, commit the identifier, insert
the row at the top of the table, append the chart point, and beep when the
magnitude meets the alert threshold. -/
def stepRecord (env : Env) (p : Params) (sa : SessionState × CycleOut)
    (r : FeedRecord) : SessionState × CycleOut :=
  if p.filterByCountry = true ∧ countryOf env r ≠ p.selCountry then sa
  else if distOf env p r ≤ p.rad ∧ p.mag ≤ magOf r ∧ r.qid ∉ sa.1.seen_ids then
    ({ seen_ids := r.qid :: sa.1.seen_ids,
       table := mkRow env p r :: sa.1.table,
       chart_points := sa.1.chart_points ++ [(r.time, magOf r)],
       status := sa.1.status },
     { newIds := sa.2.newIds ++ [r.qid],
       beeps := sa.2.beeps + (if alert_threshold ≤ magOf r then 1 else 0),
       trace := sa.2.trace ++ eventActions r.qid (decide (alert_threshold ≤ magOf r)) })
  else sa

/-- Processing of a whole fetched feature list, threading state and cycle
output through stepRecord. -/
def runFeedFrom (env : Env) (p : Params) (sa : SessionState × CycleOut)
    (feats : List FeedRecord) : SessionState × CycleOut :=
  feats.foldl (stepRecord env p) sa

/-- Processing of one successfully fetched feature list, starting from an
empty cycle output. -/
def runFeed (env : Env) (p : Params) (s : SessionState)
    (feats : List FeedRecord) : SessionState × CycleOut :=
  runFeedFrom env p (s, emptyOut) feats

/-- The network as seen by fetch_geojson: the outcome of the one secure
urlopen GET (with the QuakeWatch/1.0 header) including JSON decoding, and
the outcome an alternate HTTP client path would give if it were consulted.
Both are oracles so that the number of attempts actually made is
observable. -/
structure FetchEnv where
  primary : Except String (List FeedRecord)
  fallback : Except String (List FeedRecord)

/-- Which client paths a fetch consulted. -/
inductive Attempt where
  | primary
  | fallback
  deriving DecidableEq, Repr

/-- fetch_geojson from the source: it builds the SSL context and the
request and performs exactly one urlopen attempt; any failure propagates to
the caller, and no alternate client path is ever consulted.  The returned
list records the attempts made. -/
def fetch_geojson (fenv : FetchEnv) :
    Except String (List FeedRecord) × List Attempt :=
  (fenv.primary, [Attempt.primary])

/-- Following the spec wording for the fetch contract, for comparison with
fetch_geojson: the primary attempt first; on any failure exactly one
fallback attempt through the alternate client path; if that also fails the
call fails with the cause. -/
def fetchPerSpec (fenv : FetchEnv) :
    Except String (List FeedRecord) × List Attempt :=
  match fenv.primary with
  | Except.ok f => (Except.ok f, [Attempt.primary])
  | Except.error _ =>
    match fenv.fallback with
    | Except.ok f => (Except.ok f, [Attempt.primary, Attempt.fallback])
    | Except.error c => (Except.error c, [Attempt.primary, Attempt.fallback])

/-- Whether the monitoring loop proceeds to the next iteration after a
cycle, or returns (ending the loop thread; the host process keeps
running either way). -/
inductive LoopOutcome where
  | next
  | halted
  deriving DecidableEq, Repr

/-- One iteration of the while-loop of _loop: parse the settings (a parse
failure sets the status to Invalid settings and returns from the loop),
fetch the feed through fetch_geojson (any exception is caught, put into the
status line, and the loop continues), and on success process the features
and set the last-update status line. -/
def cycle (env : Env) (cfg : Option Params) (s : SessionState)
    (fenv : FetchEnv) : SessionState × CycleOut × LoopOutcome :=
  match cfg with
  | none => ({ s with status := "Invalid settings" }, emptyOut, LoopOutcome.halted)
  | some p =>
    match (fetch_geojson fenv).1 with
    | Except.error e => ({ s with status := e }, emptyOut, LoopOutcome.next)
    | Except.ok feats =>
      let so := runFeed env p s feats
      ({ so.1 with status := "Last update " ++ env.now }, so.2, LoopOutcome.next)

/-- A run of successive loop iterations over the given per-cycle inputs,
collecting each cycle's output; a halted cycle ends the run early, exactly
as the return statement ends _loop. -/
def runCycles (env : Env) : SessionState → List (Option Params × FetchEnv) →
    SessionState × List CycleOut
  | s, [] => (s, [])
  | s, st :: rest =>
    let c := cycle env st.1 s st.2
    if c.2.2 = LoopOutcome.halted then (c.1, [c.2.1])
    else
      let t := runCycles env c.1 rest
      (t.1, c.2.1 :: t.2)

/-- The start action: it clears the stop flag, clears the seen identifier
set and the chart points (the table rows are not cleared), saves the
config and spawns the loop thread; only the session-state effect is
modelled. -/
def start (s : SessionState) : SessionState :=
  { s with seen_ids := [], chart_points := [] }

/-- An event is in range when it is within the radius and at or above the
minimum magnitude (the two session filters). -/
def inRange (env : Env) (p : Params) (r : FeedRecord) : Prop :=
  distOf env p r ≤ p.rad ∧ p.mag ≤ magOf r

instance (env : Env) (p : Params) (r : FeedRecord) :
    Decidable (inRange env p r) := by unfold inRange; infer_instance

/-- An event is a new alert candidate for a state when it is in range and
its identifier is absent from the seen set — the guard of the loop body. -/
def isNewCandidate (env : Env) (p : Params) (s : SessionState)
    (r : FeedRecord) : Prop :=
  distOf env p r ≤ p.rad ∧ p.mag ≤ magOf r ∧ r.qid ∉ s.seen_ids

instance (env : Env) (p : Params) (s : SessionState) (r : FeedRecord) :
    Decidable (isNewCandidate env p s r) := by unfold isNewCandidate; infer_instance

/-- Direct recursive description of the rows a cycle adds, in
feed-processing order, used to characterise the table contents after a
cycle. -/
def addedRows (env : Env) (p : Params) : List String → List FeedRecord → List Row
  | _, [] => []
  | seen, r :: rs =>
    if p.filterByCountry = true ∧ countryOf env r ≠ p.selCountry then
      addedRows env p seen rs
    else if distOf env p r ≤ p.rad ∧ p.mag ≤ magOf r ∧ r.qid ∉ seen then
      mkRow env p r :: addedRows env p (r.qid :: seen) rs
    else addedRows env p seen rs

/-- Boolean test for the events a cycle commits and reports as new: the
country filter does not skip them, they are in range, and their identifier
is absent from the given seen set. -/
def newQual (env : Env) (p : Params) (seen : List String) (r : FeedRecord) : Bool :=
  (!(decide (p.filterByCountry = true ∧ countryOf env r ≠ p.selCountry))) &&
  decide (distOf env p r ≤ p.rad ∧ p.mag ≤ magOf r ∧ r.qid ∉ seen)

/-- Boolean test for the events whose processing fires the beep: committed
and reported as new, with magnitude at or above the alert threshold. -/
def beepQual (env : Env) (p : Params) (seen : List String) (r : FeedRecord) : Bool :=
  newQual env p seen r && decide (alert_threshold ≤ magOf r)

/-- Modelled from the spec: the pagination engine of spec section 4.6 is
absent from src/main.py (the table is displayed unpaginated), so it is
defined here faithfully from the spec wording: total pages is the maximum
of 1 and the ceiling of count over page size, the requested page is clamped
into the valid range, and the slice bounds are derived from the clamped
page and clipped to the list length. -/
def paginate {α : Type} (l : List α) (pageSize requestedPage : Nat) :
    List α × Nat × Nat :=
  let totalPages := max 1 ((l.length + pageSize - 1) / pageSize)
  let clampedPage := min (max requestedPage 1) totalPages
  ((l.drop ((clampedPage - 1) * pageSize)).take pageSize, clampedPage, totalPages)

/-- A table is sorted descending by UTC instant when every row's timestamp
is at least the next row's. -/
def sortedDescByTime (tbl : List Row) : Prop :=
  tbl.Pairwise (fun a b => b.time ≤ a.time)

instance (tbl : List Row) : Decidable (sortedDescByTime tbl) := by
  unfold sortedDescByTime; infer_instance

/-- The ordering property claimed for the seen-set commit: in a recorded
trace, an identifier's commit action occurs only at positions after that
identifier's alert evaluation — never before. -/
def seenCommitAfterAlertEval (tr : List Action) : Prop :=
  ∀ i j q, tr.get? i = some (Action.commitSeen q) →
    tr.get? j = some (Action.alertCheck q) → j < i

/-- The haversine great-circle distance of the source, over the reals:
Earth radius 6371.0088 km, degree inputs converted with radians. -/
noncomputable def haversine_km (lat1 lon1 lat2 lon2 : ℝ) : ℝ :=
  2 * 6371.0088 * Real.arcsin (Real.sqrt
    (Real.sin ((lat2 - lat1) * (Real.pi / 180) / 2) ^ 2 +
     Real.cos (lat1 * (Real.pi / 180)) * Real.cos (lat2 * (Real.pi / 180)) *
       Real.sin ((lon2 - lon1) * (Real.pi / 180) / 2) ^ 2))

/-- Fresh session state, as after construction of the app object. -/
def s0 : SessionState :=
  { seen_ids := [], table := [], chart_points := [], status := "Idle" }

/-- A session state that has already seen and charted an event. -/
def sSeen : SessionState :=
  { seen_ids := ["q61"], table := [], chart_points := [(2000, 6)], status := "x" }

/-- Concrete oracle environment: the observer is at distance 0 from every
event and every coordinate reverse-geocodes to the selected country. -/
def demoEnv : Env :=
  { dist := fun _ _ _ _ => 0, country := fun _ _ => "Philippines", now := "now" }

/-- Concrete oracle environment whose reverse geocoding always answers a
country different from the selected one. -/
def envJapan : Env :=
  { dist := fun _ _ _ _ => 0, country := fun _ _ => "Japan", now := "now" }

/-- Concrete settings: radius 300 km, minimum magnitude 3, country filter
off. -/
def demoParams : Params :=
  { lat := 0, lon := 0, rad := 300, mag := 3,
    filterByCountry := false, selCountry := "Philippines" }

/-- Concrete settings with the country filter enabled. -/
def pCountryOn : Params :=
  { lat := 0, lon := 0, rad := 300, mag := 3,
    filterByCountry := true, selCountry := "Philippines" }

/-- A magnitude-6 event above the alert threshold, timestamp 2000. -/
def rBig : FeedRecord :=
  { qid := "q61", qlat := 1, qlon := 2, mag := some 6, place := "Offshore",
    time := 2000 }

/-- A second, older magnitude-7 event above the alert threshold. -/
def rBig2 : FeedRecord :=
  { qid := "q62", qlat := 1, qlon := 3, mag := some 7, place := "Coast",
    time := 1000 }

/-- A concrete fetch environment whose one urlopen attempt succeeds with a
single-event feed. -/
def fenvOk : FetchEnv := { primary := Except.ok [rBig], fallback := Except.ok [] }

/-- A concrete fetch environment whose one urlopen attempt fails while the
alternate client path would have succeeded. -/
def fenvErr : FetchEnv :=
  { primary := Except.error "network down", fallback := Except.ok [] }

/-! ## Helper lemmas about one loop iteration -/

theorem alert_threshold_eq : alert_threshold = 5.5 := by
  rw [alert_threshold, Rat.mk'_eq_divInt, Rat.divInt_eq_div]; norm_num

theorem stepRecord_skip {env : Env} {p : Params} {sa : SessionState × CycleOut}
    {r : FeedRecord}
    (h : p.filterByCountry = true ∧ countryOf env r ≠ p.selCountry) :
    stepRecord env p sa r = sa := by
  unfold stepRecord; rw [if_pos h]

theorem stepRecord_commit {env : Env} {p : Params} {sa : SessionState × CycleOut}
    {r : FeedRecord}
    (h1 : ¬(p.filterByCountry = true ∧ countryOf env r ≠ p.selCountry))
    (h2 : distOf env p r ≤ p.rad ∧ p.mag ≤ magOf r ∧ r.qid ∉ sa.1.seen_ids) :
    stepRecord env p sa r =
      ({ seen_ids := r.qid :: sa.1.seen_ids,
         table := mkRow env p r :: sa.1.table,
         chart_points := sa.1.chart_points ++ [(r.time, magOf r)],
         status := sa.1.status },
       { newIds := sa.2.newIds ++ [r.qid],
         beeps := sa.2.beeps + (if alert_threshold ≤ magOf r then 1 else 0),
         trace := sa.2.trace ++ eventActions r.qid (decide (alert_threshold ≤ magOf r)) }) := by
  unfold stepRecord; rw [if_neg h1, if_pos h2]

theorem stepRecord_stay {env : Env} {p : Params} {sa : SessionState × CycleOut}
    {r : FeedRecord}
    (h1 : ¬(p.filterByCountry = true ∧ countryOf env r ≠ p.selCountry))
    (h2 : ¬(distOf env p r ≤ p.rad ∧ p.mag ≤ magOf r ∧ r.qid ∉ sa.1.seen_ids)) :
    stepRecord env p sa r = sa := by
  unfold stepRecord; rw [if_neg h1, if_neg h2]

theorem runFeedFrom_nil (env : Env) (p : Params) (sa : SessionState × CycleOut) :
    runFeedFrom env p sa [] = sa := rfl

theorem runFeedFrom_cons (env : Env) (p : Params) (sa : SessionState × CycleOut)
    (r : FeedRecord) (rs : List FeedRecord) :
    runFeedFrom env p sa (r :: rs) = runFeedFrom env p (stepRecord env p sa r) rs := rfl

theorem seen_subset_step (env : Env) (p : Params) (sa : SessionState × CycleOut)
    (r : FeedRecord) : sa.1.seen_ids ⊆ (stepRecord env p sa r).1.seen_ids := by
  by_cases h1 : p.filterByCountry = true ∧ countryOf env r ≠ p.selCountry
  · rw [stepRecord_skip h1]
    exact fun x hx => hx
  · by_cases h2 : distOf env p r ≤ p.rad ∧ p.mag ≤ magOf r ∧ r.qid ∉ sa.1.seen_ids
    · rw [stepRecord_commit h1 h2]
      exact List.subset_cons_self _ _
    · rw [stepRecord_stay h1 h2]
      exact fun x hx => hx

theorem seen_subset_runFeedFrom (env : Env) (p : Params) :
    ∀ (feats : List FeedRecord) (sa : SessionState × CycleOut),
      sa.1.seen_ids ⊆ (runFeedFrom env p sa feats).1.seen_ids := by
  intro feats
  induction feats with
  | nil => intro sa; exact fun x hx => hx
  | cons r rs ih =>
    intro sa
    rw [runFeedFrom_cons]
    exact (seen_subset_step env p sa r).trans (ih _)

theorem not_reported_runFeedFrom (env : Env) (p : Params) :
    ∀ (feats : List FeedRecord) (sa : SessionState × CycleOut) (q : String),
      q ∈ sa.1.seen_ids → q ∉ sa.2.newIds →
      q ∉ (runFeedFrom env p sa feats).2.newIds := by
  intro feats
  induction feats with
  | nil => intro sa q _ hn; exact hn
  | cons r rs ih =>
    intro sa q hs hn
    rw [runFeedFrom_cons]
    by_cases h1 : p.filterByCountry = true ∧ countryOf env r ≠ p.selCountry
    · rw [stepRecord_skip h1]; exact ih sa q hs hn
    · by_cases h2 : distOf env p r ≤ p.rad ∧ p.mag ≤ magOf r ∧ r.qid ∉ sa.1.seen_ids
      · rw [stepRecord_commit h1 h2]
        refine ih _ q (List.mem_cons_of_mem _ hs) ?_
        simp only [List.mem_append, List.mem_singleton]
        rintro (h | h)
        · exact hn h
        · exact h2.2.2 (h ▸ hs)
      · rw [stepRecord_stay h1 h2]; exact ih sa q hs hn

theorem cycle_seen_mono (env : Env) (cfg : Option Params) (s : SessionState)
    (fenv : FetchEnv) : s.seen_ids ⊆ (cycle env cfg s fenv).1.seen_ids := by
  match cfg with
  | none => exact fun x hx => hx
  | some p =>
    unfold cycle
    match (fetch_geojson fenv).1 with
    | Except.error e => exact fun x hx => hx
    | Except.ok feats => exact seen_subset_runFeedFrom env p feats (s, emptyOut)

theorem cycle_not_reported (env : Env) (cfg : Option Params) (s : SessionState)
    (fenv : FetchEnv) (q : String) (h : q ∈ s.seen_ids) :
    q ∉ (cycle env cfg s fenv).2.1.newIds := by
  match cfg with
  | none => exact List.not_mem_nil q
  | some p =>
    unfold cycle
    match (fetch_geojson fenv).1 with
    | Except.error e => exact List.not_mem_nil q
    | Except.ok feats =>
      exact not_reported_runFeedFrom env p feats (s, emptyOut) q h (List.not_mem_nil q)

theorem runCycles_not_reported (env : Env) :
    ∀ (steps : List (Option Params × FetchEnv)) (s : SessionState) (q : String),
      q ∈ s.seen_ids → ∀ out ∈ (runCycles env s steps).2, q ∉ out.newIds := by
  intro steps
  induction steps with
  | nil => intro s q _ out hout; exact absurd hout (List.not_mem_nil out)
  | cons st rest ih =>
    intro s q hq out hout
    rw [runCycles] at hout
    by_cases hh : (cycle env st.1 s st.2).2.2 = LoopOutcome.halted
    · rw [if_pos hh] at hout
      rcases List.mem_singleton.mp hout with h
      exact h ▸ cycle_not_reported env st.1 s st.2 q hq
    · rw [if_neg hh] at hout
      rcases List.mem_cons.mp hout with h | h
      · exact h ▸ cycle_not_reported env st.1 s st.2 q hq
      · exact ih (cycle env st.1 s st.2).1 q (cycle_seen_mono env st.1 s st.2 hq) out h

/-! ## C1 -/

/-- C1 (confirmed): once an identifier has been committed to the seen set
by some prefix of cycles, no later cycle of the same session reports it
among the newly alerted identifiers, whatever feeds arrive, because the
loop never removes identifiers from the seen set and guards every report
with the not-seen test; only an explicit reset (start or clear) empties the
set. -/
theorem seen_committed_never_rereported (env : Env) (s : SessionState)
    (pre post : List (Option Params × FetchEnv)) (q : String)
    (h : q ∈ (runCycles env s pre).1.seen_ids) :
    ∀ out ∈ (runCycles env (runCycles env s pre).1 post).2, q ∉ out.newIds :=
  runCycles_not_reported env post (runCycles env s pre).1 q h

/-- Witness for C1: a magnitude-6 in-range event is committed by a first
cycle and reported by no later cycle over the same feed. -/
theorem seen_committed_never_rereported_witness :
    "q61" ∈ (runCycles demoEnv s0 [(some demoParams, fenvOk)]).1.seen_ids ∧
    ∀ out ∈ (runCycles demoEnv (runCycles demoEnv s0 [(some demoParams, fenvOk)]).1
        [(some demoParams, fenvOk)]).2, "q61" ∉ out.newIds :=
  ⟨by decide,
   seen_committed_never_rereported demoEnv s0 [(some demoParams, fenvOk)]
     [(some demoParams, fenvOk)] "q61" (by decide)⟩

/-! ## C4 -/

/-- C4 (confirmed): when the one fetch attempt of a cycle fails, the
exception is caught, its message becomes the status line shown to the
operator, the seen set, the displayed table and the chart points are left
exactly as they were, no cycle output is produced, and the loop proceeds to
the next iteration instead of terminating. -/
theorem fetch_failure_cycle_preserves_state (env : Env) (p : Params)
    (s : SessionState) (e : String) (fb : Except String (List FeedRecord)) :
    (cycle env (some p) s { primary := Except.error e, fallback := fb }).1.seen_ids
        = s.seen_ids ∧
    (cycle env (some p) s { primary := Except.error e, fallback := fb }).1.table
        = s.table ∧
    (cycle env (some p) s { primary := Except.error e, fallback := fb }).1.chart_points
        = s.chart_points ∧
    (cycle env (some p) s { primary := Except.error e, fallback := fb }).1.status = e ∧
    (cycle env (some p) s { primary := Except.error e, fallback := fb }).2.1 = emptyOut ∧
    (cycle env (some p) s { primary := Except.error e, fallback := fb }).2.2
        = LoopOutcome.next :=
  ⟨rfl, rfl, rfl, rfl, rfl, rfl⟩

/-! ## C3 -/

/-- C3 (corrected) counterexample: on a failing primary attempt the source
fetch makes no second attempt at all — its attempt list stays [primary] and
the error propagates — while the spec-worded contract fetchPerSpec demands
a fallback attempt and would have succeeded here. -/
theorem fetch_no_fallback_counterexample :
    (fetch_geojson fenvErr).2 = [Attempt.primary] ∧
    Attempt.fallback ∉ (fetch_geojson fenvErr).2 ∧
    (fetchPerSpec fenvErr).2 = [Attempt.primary, Attempt.fallback] ∧
    (fetch_geojson fenvErr).1 = Except.error "network down" ∧
    (fetchPerSpec fenvErr).1 = Except.ok [] :=
  ⟨rfl, by decide, rfl, rfl, rfl⟩

/-- C3 (corrected, amended): fetch_geojson makes exactly one attempt — the
secure urlopen GET with the fixed client header — and its outcome, success
or failure, is the outcome of that single attempt; no alternate client path
is consulted and there is no further retry. -/
theorem fetch_single_attempt (fenv : FetchEnv) :
    (fetch_geojson fenv).2 = [Attempt.primary] ∧
    (fetch_geojson fenv).1 = fenv.primary :=
  ⟨rfl, rfl⟩

/-! ## C10 -/

/-- C10 (confirmed): start clears the seen identifier set and the chart
point list (the table rows persist), so relative to the restarted session
state every in-range event — including one alerted or displayed before the
restart — is again a new alert candidate. -/
theorem start_resets_session (s : SessionState) :
    (start s).seen_ids = [] ∧ (start s).chart_points = [] ∧
    ∀ (env : Env) (p : Params) (r : FeedRecord),
      inRange env p r → isNewCandidate env p (start s) r := by
  refine ⟨rfl, rfl, ?_⟩
  intro env p r h
  exact ⟨h.1, h.2, List.not_mem_nil r.qid⟩

/-- Witness for C10: an event already seen and charted in the session is
again a new alert candidate after start. -/
theorem start_resets_session_witness :
    inRange demoEnv demoParams rBig ∧
    isNewCandidate demoEnv demoParams (start sSeen) rBig :=
  ⟨by decide, (start_resets_session sSeen).2.2 demoEnv demoParams rBig (by decide)⟩

/-! ## C9 -/

/-- C9 (confirmed): the haversine great-circle distance with Earth radius
6371.0088 km is symmetric in its two coordinate pairs and is zero on
identical coordinates. -/
theorem haversine_symm_and_zero :
    (∀ lat1 lon1 lat2 lon2 : ℝ,
        haversine_km lat1 lon1 lat2 lon2 = haversine_km lat2 lon2 lat1 lon1) ∧
    (∀ lat lon : ℝ, haversine_km lat lon lat lon = 0) := by
  constructor
  · intro a b c d
    unfold haversine_km
    have e1 : Real.sin ((a - c) * (Real.pi / 180) / 2) ^ 2
        = Real.sin ((c - a) * (Real.pi / 180) / 2) ^ 2 := by
      rw [show (a - c) * (Real.pi / 180) / 2
            = -((c - a) * (Real.pi / 180) / 2) by ring, Real.sin_neg]
      ring
    have e2 : Real.sin ((b - d) * (Real.pi / 180) / 2) ^ 2
        = Real.sin ((d - b) * (Real.pi / 180) / 2) ^ 2 := by
      rw [show (b - d) * (Real.pi / 180) / 2
            = -((d - b) * (Real.pi / 180) / 2) by ring, Real.sin_neg]
      ring
    rw [e1, e2]
    ring_nf
  · intro lat lon
    unfold haversine_km
    simp [sub_self, Real.arcsin_zero]

/-! ## Characterisation lemmas for one cycle's outputs -/

theorem newQual_eq_true_iff (env : Env) (p : Params) (seen : List String)
    (r : FeedRecord) :
    newQual env p seen r = true ↔
      (¬(p.filterByCountry = true ∧ countryOf env r ≠ p.selCountry) ∧
       (distOf env p r ≤ p.rad ∧ p.mag ≤ magOf r ∧ r.qid ∉ seen)) := by
  simp only [newQual, Bool.and_eq_true, Bool.not_eq_true', decide_eq_false_iff_not,
    decide_eq_true_eq, and_comm]

theorem newIds_aux (env : Env) (p : Params) :
    ∀ (feats : List FeedRecord) (sa : SessionState × CycleOut),
      (feats.map FeedRecord.qid).Nodup →
      (runFeedFrom env p sa feats).2.newIds =
        sa.2.newIds ++ (feats.filter (newQual env p sa.1.seen_ids)).map FeedRecord.qid := by
  intro feats
  induction feats with
  | nil => intro sa _; simp [runFeedFrom_nil]
  | cons r rs ih =>
    intro sa hnd
    rw [List.map_cons, List.nodup_cons] at hnd
    obtain ⟨hr, hnd2⟩ := hnd
    rw [runFeedFrom_cons]
    by_cases h1 : p.filterByCountry = true ∧ countryOf env r ≠ p.selCountry
    · have hq : ¬ (newQual env p sa.1.seen_ids r = true) := by
        simp [newQual, h1]
      rw [stepRecord_skip h1, ih sa hnd2, List.filter_cons_of_neg hq]
    · by_cases h2 : distOf env p r ≤ p.rad ∧ p.mag ≤ magOf r ∧ r.qid ∉ sa.1.seen_ids
      · have hq : newQual env p sa.1.seen_ids r = true :=
          (newQual_eq_true_iff env p sa.1.seen_ids r).mpr ⟨h1, h2⟩
        rw [stepRecord_commit h1 h2, ih _ hnd2]
        have hfc : rs.filter (newQual env p (r.qid :: sa.1.seen_ids))
            = rs.filter (newQual env p sa.1.seen_ids) := by
          apply List.filter_congr
          intro x hx
          have hxq : x.qid ≠ r.qid := by
            intro he
            exact hr (he ▸ List.mem_map_of_mem FeedRecord.qid hx)
          simp [newQual, List.mem_cons, hxq]
        rw [List.filter_cons_of_pos hq]
        simp only [hfc, List.map_cons, List.append_assoc, List.singleton_append]
      · have hq : ¬ (newQual env p sa.1.seen_ids r = true) := by
          simp [newQual, h2]
        rw [stepRecord_stay h1 h2, ih sa hnd2, List.filter_cons_of_neg hq]

theorem beeps_aux (env : Env) (p : Params) :
    ∀ (feats : List FeedRecord) (sa : SessionState × CycleOut),
      (feats.map FeedRecord.qid).Nodup →
      (runFeedFrom env p sa feats).2.beeps =
        sa.2.beeps + (feats.filter (beepQual env p sa.1.seen_ids)).length := by
  intro feats
  induction feats with
  | nil => intro sa _; simp [runFeedFrom_nil]
  | cons r rs ih =>
    intro sa hnd
    rw [List.map_cons, List.nodup_cons] at hnd
    obtain ⟨hr, hnd2⟩ := hnd
    rw [runFeedFrom_cons]
    by_cases h1 : p.filterByCountry = true ∧ countryOf env r ≠ p.selCountry
    · have hq : ¬ (beepQual env p sa.1.seen_ids r = true) := by
        simp [beepQual, newQual, h1]
      rw [stepRecord_skip h1, ih sa hnd2, List.filter_cons_of_neg hq]
    · by_cases h2 : distOf env p r ≤ p.rad ∧ p.mag ≤ magOf r ∧ r.qid ∉ sa.1.seen_ids
      · have hnq : newQual env p sa.1.seen_ids r = true :=
          (newQual_eq_true_iff env p sa.1.seen_ids r).mpr ⟨h1, h2⟩
        rw [stepRecord_commit h1 h2, ih _ hnd2]
        have hfc : rs.filter (beepQual env p (r.qid :: sa.1.seen_ids))
            = rs.filter (beepQual env p sa.1.seen_ids) := by
          apply List.filter_congr
          intro x hx
          have hxq : x.qid ≠ r.qid := by
            intro he
            exact hr (he ▸ List.mem_map_of_mem FeedRecord.qid hx)
          simp [beepQual, newQual, List.mem_cons, hxq]
        rw [hfc]
        by_cases h3 : alert_threshold ≤ magOf r
        · have hq : beepQual env p sa.1.seen_ids r = true := by
            simp [beepQual, hnq, h3]
          rw [List.filter_cons_of_pos hq, if_pos h3]
          simp only [List.length_cons]
          omega
        · have hq : ¬ (beepQual env p sa.1.seen_ids r = true) := by
            simp [beepQual, h3]
          rw [List.filter_cons_of_neg hq, if_neg h3]
          simp
      · have hq : ¬ (beepQual env p sa.1.seen_ids r = true) := by
          simp [beepQual, newQual, h2]
        rw [stepRecord_stay h1 h2, ih sa hnd2, List.filter_cons_of_neg hq]

theorem table_aux (env : Env) (p : Params) :
    ∀ (feats : List FeedRecord) (sa : SessionState × CycleOut),
      (runFeedFrom env p sa feats).1.table =
        (addedRows env p sa.1.seen_ids feats).reverse ++ sa.1.table := by
  intro feats
  induction feats with
  | nil => intro sa; simp [runFeedFrom_nil, addedRows]
  | cons r rs ih =>
    intro sa
    rw [runFeedFrom_cons]
    simp only [addedRows]
    by_cases h1 : p.filterByCountry = true ∧ countryOf env r ≠ p.selCountry
    · rw [stepRecord_skip h1, if_pos h1, ih sa]
    · rw [if_neg h1]
      by_cases h2 : distOf env p r ≤ p.rad ∧ p.mag ≤ magOf r ∧ r.qid ∉ sa.1.seen_ids
      · rw [stepRecord_commit h1 h2, if_pos h2, ih _]
        simp [List.reverse_cons, List.append_assoc]
      · rw [stepRecord_stay h1 h2, if_neg h2, ih sa]

/-! ## C2 -/

/-- C2 (corrected) counterexample: with the country filter enabled, a
record that passes the magnitude and radius filter (magnitude 6 at least 3,
distance 0 at most 300) is skipped because its reverse-geocoded country
differs from the selection: nothing is added to the displayed table and no
identifier is reported, so membership in the displayed output is not
equivalent to the magnitude and radius test alone. -/
theorem inRange_yet_not_displayed_counterexample :
    inRange envJapan pCountryOn rBig ∧
    (runFeed envJapan pCountryOn s0 [rBig]).1.table = [] ∧
    (runFeed envJapan pCountryOn s0 [rBig]).2.newIds = [] := by decide

/-- C2 (corrected, amended): a feed record is displayed as new in a cycle —
its row added to the table and its identifier reported — iff it passes the
magnitude and radius filter AND its identifier is not already in the
seen-set AND the country filter is off or its reverse-geocoded country
equals the selection; rows added in earlier cycles simply persist in the
table. -/
theorem displayed_iff_inRange_new_country (env : Env) (p : Params)
    (s : SessionState) (feats : List FeedRecord)
    (hnd : (feats.map FeedRecord.qid).Nodup) (r : FeedRecord) (hr : r ∈ feats) :
    r.qid ∈ (runFeed env p s feats).2.newIds ↔
      (inRange env p r ∧ r.qid ∉ s.seen_ids ∧
       ¬(p.filterByCountry = true ∧ countryOf env r ≠ p.selCountry)) := by
  rw [runFeed, newIds_aux env p feats (s, emptyOut) hnd]
  simp only [emptyOut, List.nil_append]
  constructor
  · intro h
    obtain ⟨x, hx, hxq⟩ := List.mem_map.mp h
    obtain ⟨hxf, hxq2⟩ := List.mem_filter.mp hx
    have hxr : x = r := List.inj_on_of_nodup_map hnd hxf hr hxq
    subst hxr
    obtain ⟨hc, hd, hm, hs⟩ :=
      (newQual_eq_true_iff env p s.seen_ids x).mp hxq2
    exact ⟨⟨hd, hm⟩, hs, hc⟩
  · rintro ⟨⟨hd, hm⟩, hs, hc⟩
    refine List.mem_map.mpr ⟨r, List.mem_filter.mpr ⟨hr, ?_⟩, rfl⟩
    exact (newQual_eq_true_iff env p s.seen_ids r).mpr ⟨hc, hd, hm, hs⟩

/-- Witness for the amended C2: the single-record feed with the country
filter off. -/
theorem displayed_iff_inRange_new_country_witness :
    (([rBig].map FeedRecord.qid).Nodup ∧ rBig ∈ [rBig]) ∧
    (rBig.qid ∈ (runFeed demoEnv demoParams s0 [rBig]).2.newIds ↔
      (inRange demoEnv demoParams rBig ∧ rBig.qid ∉ s0.seen_ids ∧
       ¬(demoParams.filterByCountry = true ∧
         countryOf demoEnv rBig ≠ demoParams.selCountry))) :=
  ⟨⟨by decide, by decide⟩,
   displayed_iff_inRange_new_country demoEnv demoParams s0 [rBig]
     (by decide) rBig (by decide)⟩

/-! ## C5 -/

/-- C5 (corrected) counterexample: two new in-range events both above the
alert threshold arrive in one cycle; the audible cue fires twice — once per
qualifying event — not exactly once for the cycle as the claim states. -/
theorem beep_fired_per_event_counterexample :
    (runFeed demoEnv demoParams s0 [rBig, rBig2]).2.newIds = ["q61", "q62"] ∧
    alert_threshold ≤ magOf rBig ∧ alert_threshold ≤ magOf rBig2 ∧
    (runFeed demoEnv demoParams s0 [rBig, rBig2]).2.beeps = 2 ∧
    (runFeed demoEnv demoParams s0 [rBig, rBig2]).2.beeps ≠ 1 := by decide

/-- C5 (corrected, amended): the audible cue fires once per qualifying
event: in a cycle over a feed with distinct identifiers, the number of Beep
calls equals the number of records that pass the country filter, the
magnitude and radius filter, the not-seen test, and the alert threshold. -/
theorem beeps_count_eq_qualifying (env : Env) (p : Params) (s : SessionState)
    (feats : List FeedRecord) (hnd : (feats.map FeedRecord.qid).Nodup) :
    (runFeed env p s feats).2.beeps =
      (feats.filter (beepQual env p s.seen_ids)).length := by
  rw [runFeed, beeps_aux env p feats (s, emptyOut) hnd]
  simp [emptyOut]

/-- Witness for the amended C5: both demo events qualify and two beeps are
counted. -/
theorem beeps_count_eq_qualifying_witness :
    ([rBig, rBig2].map FeedRecord.qid).Nodup ∧
    (runFeed demoEnv demoParams s0 [rBig, rBig2]).2.beeps =
      ([rBig, rBig2].filter (beepQual demoEnv demoParams s0.seen_ids)).length :=
  ⟨by decide,
   beeps_count_eq_qualifying demoEnv demoParams s0 [rBig, rBig2] (by decide)⟩

/-! ## C6 -/

/-- C6 (corrected) counterexample: in the trace of a cycle that alerts on a
new in-range event, the seen-set commit for its identifier occurs at
position 0, strictly before the alert evaluation at position 3, so the
claimed ordering — committed only after the alert evaluation, never
before — fails on the code. -/
theorem commit_before_alert_eval_counterexample :
    (runFeed demoEnv demoParams s0 [rBig]).2.trace.get? 0
        = some (Action.commitSeen "q61") ∧
    (runFeed demoEnv demoParams s0 [rBig]).2.trace.get? 3
        = some (Action.alertCheck "q61") ∧
    ¬ seenCommitAfterAlertEval (runFeed demoEnv demoParams s0 [rBig]).2.trace := by
  refine ⟨by decide, by decide, ?_⟩
  intro h
  have h0 : (runFeed demoEnv demoParams s0 [rBig]).2.trace.get? 0
      = some (Action.commitSeen "q61") := by decide
  have h3 : (runFeed demoEnv demoParams s0 [rBig]).2.trace.get? 3
      = some (Action.alertCheck "q61") := by decide
  exact absurd (h 0 3 "q61" h0 h3) (by omega)

theorem seen_covers_aux (env : Env) (p : Params) :
    ∀ (feats : List FeedRecord) (sa : SessionState × CycleOut) (r : FeedRecord),
      r ∈ feats →
      ¬(p.filterByCountry = true ∧ countryOf env r ≠ p.selCountry) →
      distOf env p r ≤ p.rad → p.mag ≤ magOf r →
      r.qid ∈ (runFeedFrom env p sa feats).1.seen_ids := by
  intro feats
  induction feats with
  | nil => intro sa r hr; exact absurd hr (List.not_mem_nil r)
  | cons r0 rs ih =>
    intro sa r hr hskip hd hm
    rw [runFeedFrom_cons]
    rcases List.mem_cons.mp hr with he | hrs
    · subst he
      by_cases h2 : distOf env p r ≤ p.rad ∧ p.mag ≤ magOf r ∧ r.qid ∉ sa.1.seen_ids
      · rw [stepRecord_commit hskip h2]
        exact seen_subset_runFeedFrom env p rs _ (List.mem_cons_self r.qid _)
      · have hin : r.qid ∈ sa.1.seen_ids := by tauto
        rw [stepRecord_stay hskip h2]
        exact seen_subset_runFeedFrom env p rs sa hin
    · exact ih _ r hrs hskip hd hm

/-- C6 (corrected, amended): after a cycle, every in-range event that
passed the country filter has its identifier in the seen-set regardless of
whether it met the alert threshold; however, within each event's action
block the identifier is committed strictly before — not after — the alert
evaluation; the alert decision does not consult the seen-set, so the event
still alerts in its first cycle and is suppressed in later ones. -/
theorem seen_commit_coverage_and_order :
    (∀ (env : Env) (p : Params) (s : SessionState) (feats : List FeedRecord)
        (r : FeedRecord), r ∈ feats →
        ¬(p.filterByCountry = true ∧ countryOf env r ≠ p.selCountry) →
        inRange env p r →
        r.qid ∈ (runFeed env p s feats).1.seen_ids) ∧
    (∀ (q : String) (b : Bool), ∃ i j, i < j ∧
        (eventActions q b).get? i = some (Action.commitSeen q) ∧
        (eventActions q b).get? j = some (Action.alertCheck q)) := by
  constructor
  · intro env p s feats r hr hskip hir
    exact seen_covers_aux env p feats (s, emptyOut) r hr hskip hir.1 hir.2
  · intro q b
    refine ⟨0, 3, by omega, ?_, ?_⟩ <;> cases b <;> rfl

/-- Witness for the amended C6: the magnitude-6 event's identifier is in
the seen-set after its cycle. -/
theorem seen_commit_coverage_and_order_witness :
    (rBig ∈ [rBig] ∧ inRange demoEnv demoParams rBig) ∧
    "q61" ∈ (runFeed demoEnv demoParams s0 [rBig]).1.seen_ids :=
  ⟨⟨by decide, by decide⟩,
   seen_commit_coverage_and_order.1 demoEnv demoParams s0 [rBig] rBig
     (by decide) (by decide) (by decide)⟩

/-! ## C8 -/

/-- C8 (corrected) counterexample: a feed that delivers a newer event
before an older one (as the newest-first USGS feeds do) yields a displayed
table whose timestamps read 1000 then 2000 from the top — not descending by
UTC instant. -/
theorem table_not_sorted_counterexample :
    ((runFeed demoEnv demoParams s0 [rBig, rBig2]).1.table.map Row.time)
        = [1000, 2000] ∧
    ¬ sortedDescByTime (runFeed demoEnv demoParams s0 [rBig, rBig2]).1.table := by
  decide

/-- C8 (corrected, amended): the displayed list is kept in reverse
insertion order — each newly added in-range event is inserted at the top,
so after a cycle the table equals the cycle's added rows reversed, followed
by the previous rows; no sort by UTC instant is performed, and the display
is descending by time only when new events happen to arrive oldest
first. -/
theorem table_reverse_insertion (env : Env) (p : Params) (s : SessionState)
    (feats : List FeedRecord) :
    (runFeed env p s feats).1.table =
      (addedRows env p s.seen_ids feats).reverse ++ s.table :=
  table_aux env p feats (s, emptyOut)

/-! ## C7 -/

theorem chunks_flatten {α : Type} (S : Nat) :
    ∀ (n : Nat) (l : List α),
      ((List.range n).map (fun k => (l.drop (k * S)).take S)).flatten
        = l.take (n * S) := by
  intro n
  induction n with
  | zero => intro l; simp
  | succ m ih =>
    intro l
    rw [List.range_succ, List.map_append, List.flatten_append]
    simp only [List.map_cons, List.map_nil, List.flatten_cons, List.flatten_nil,
      List.append_nil, ih]
    rw [Nat.succ_mul, List.take_add]

theorem ceil_mul_ge (len S : Nat) (hS : 1 ≤ S) :
    len ≤ (max 1 ((len + S - 1) / S)) * S := by
  have hd := Nat.div_add_mod (len + S - 1) S
  have hm : (len + S - 1) % S < S := Nat.mod_lt _ (by omega)
  rw [Nat.mul_comm] at hd
  have h0 : len ≤ ((len + S - 1) / S) * S := by omega
  calc len ≤ ((len + S - 1) / S) * S := h0
    _ ≤ (max 1 ((len + S - 1) / S)) * S :=
        Nat.mul_le_mul_right S (le_max_right 1 _)

/-- C7 (confirmed): reason spec-modelled — the pagination engine is absent
from src/main.py, so paginate is defined from the spec wording.  For page
size at least 1: total pages is the maximum of 1 and the ceiling of the
count over the page size, the requested page is clamped into [1, total
pages] without error, the returned slice is the clamped page's window
clipped to the list length, and the page slices taken in order partition
the whole list. -/
theorem paginate_spec_correct (α : Type) (l : List α) (S P : Nat) (hS : 1 ≤ S) :
    (paginate l S P).2.2 = max 1 ((l.length + S - 1) / S) ∧
    (paginate l S P).2.1 = min (max P 1) (paginate l S P).2.2 ∧
    (1 ≤ (paginate l S P).2.1 ∧ (paginate l S P).2.1 ≤ (paginate l S P).2.2) ∧
    (paginate l S P).1 = (l.drop (((paginate l S P).2.1 - 1) * S)).take S ∧
    ((List.range (paginate l S P).2.2).map
        (fun k => (paginate l S (k + 1)).1)).flatten = l := by
  refine ⟨rfl, rfl, ⟨?_, ?_⟩, rfl, ?_⟩
  · exact le_min (le_max_right P 1) (le_max_left 1 _)
  · exact min_le_right _ _
  · have hmap : ∀ k ∈ List.range (max 1 ((l.length + S - 1) / S)),
        (paginate l S (k + 1)).1 = (l.drop (k * S)).take S := by
      intro k hk
      rw [List.mem_range] at hk
      have h1 : max (k + 1) 1 = k + 1 := by omega
      have h2 : min (k + 1) (max 1 ((l.length + S - 1) / S)) = k + 1 := by omega
      simp only [paginate, h1, h2, Nat.add_sub_cancel]
    have htp : (paginate l S P).2.2 = max 1 ((l.length + S - 1) / S) := rfl
    rw [htp, List.map_congr_left hmap, chunks_flatten S]
    exact List.take_of_length_le (ceil_mul_ge l.length S hS)

/-- Witness for C7: scenario C — 25 items, page size 10, requested page 5;
the hypothesis holds and the page slices partition the list. -/
theorem paginate_spec_correct_witness :
    1 ≤ 10 ∧
    ((List.range (paginate (List.range 25) 10 5).2.2).map
        (fun k => (paginate (List.range 25) 10 (k + 1)).1)).flatten
      = List.range 25 :=
  ⟨by decide,
   (paginate_spec_correct Nat (List.range 25) 10 5 (by decide)).2.2.2.2⟩

end QuakeWatch
